/-
Verification of the crossy_terminal game core (src/stripe.rs, src/map.rs)
against its natural-language specification.

Shallow embedding conventions:
* Rust arrays `[T; STRIPE_LENGTH]` are `List` values; all constructors in the
  source produce lists of length `STRIPE_LENGTH = 7`, and the state window
  always has `ROW_COUNT = 20` rows (proved as an invariant below).
* `u64` counters (`score`, `bottom_y`, `wall_of_death`, `tick`) are `Nat`:
  they only ever grow by 1 per operation, so 2^64 is unreachable in any
  execution of feasible length.  The one place where 64-bit overflow is
  semantically relevant — the `bottom_y + (index cast to u64)` addition in
  `detect_death` — is modelled exactly, with wrapping (`% 2^64`, the release
  build semantics) in `player_pos` and an explicit no-overflow side condition
  `arith_ok`.
* `player_down: u8` wraps at 256 (`% 256`), since 256 presses are reachable.
* Randomness (`rand::...`) is made explicit: every random choice becomes a
  parameter (an oracle), so "for every random outcome" is ordinary
  universal quantification.  The support of each oracle parameter matches
  the support of the random distribution in the source.
* Indexing that can panic in Rust (`Vec`/array indexing, `Option::unwrap`)
  is modelled totally with `getD`/`get?` plus explicit side conditions where
  a claim is about panic freedom.
-/
import Mathlib

set_option maxHeartbeats 1000000

/-- `pub const STRIPE_LENGTH: usize = 7;` (stripe.rs) -/
def STRIPE_LENGTH : Nat := 7

/-- `const TILE_WIDTH: usize = 3;` (stripe.rs) -/
def TILE_WIDTH : Nat := 3

/-- `const ROW_COUNT: usize = 20;` (map.rs) -/
def ROW_COUNT : Nat := 20

/-- `const MAX_PLAYER_Y_INDEX: usize = 3;` (map.rs) -/
def MAX_PLAYER_Y_INDEX : Nat := 3

/-- `enum ColoredChar` (stripe.rs): one colored display sub-unit.  The final
ANSI escape string emitted by `get_color` is presentation-only and not
modelled; a rendered row is a `List ColoredChar`, one entry per sub-unit. -/
inductive ColoredChar where
  | Green | BrightGreen | White | Gray | DarkYellow | Red | Black
deriving DecidableEq, Repr

/-- `enum Block` (stripe.rs). -/
inductive Block where
  | Green | BrightGreen | White | Gray | DarkYellow | Red | Black
deriving DecidableEq, Repr

/-- `Block::to_char` (stripe.rs). -/
def Block.to_char : Block → ColoredChar
  | .Green => .Green
  | .BrightGreen => .BrightGreen
  | .White => .White
  | .Gray => .Gray
  | .DarkYellow => .DarkYellow
  | .Red => .Red
  | .Black => .Black

/-- `Block::render_len` (stripe.rs): pushes `to_char` `len` times. -/
def Block.render_len (b : Block) (len : Nat) : List ColoredChar :=
  List.replicate len b.to_char

/-- `Block::color_coded` (stripe.rs). -/
def Block.color_coded (b : Block) : List ColoredChar :=
  b.render_len TILE_WIDTH

/-- `struct Offset` (stripe.rs). -/
structure Offset where
  offset : Nat
  fill : Block
  left : Bool
deriving DecidableEq, Repr

/-- `struct StripeRender` (stripe.rs). -/
structure StripeRender where
  blocks : List Block
  offset : Option Offset
  overlay : List (Option Block)
deriving DecidableEq, Repr

/-- `StripeRender::new` (stripe.rs): `overlay = [None; STRIPE_LENGTH]`. -/
def StripeRender.new (blocks : List Block) (offset : Option Offset) : StripeRender :=
  { blocks := blocks, offset := offset,
    overlay := List.replicate STRIPE_LENGTH none }

/-- `StripeRender::default` (stripe.rs). -/
def StripeRender.default : StripeRender :=
  StripeRender.new (List.replicate STRIPE_LENGTH Block.Black) none

/-- `StripeRender::render_base` (stripe.rs).

The source walks an enumerated iterator over `blocks`:
* with a left offset, the first block is consumed and truncated to
  `(TILE_WIDTH - offset).max(0)` sub-units, the remaining blocks render in
  full, and `offset` fill sub-units are appended;
* with a right offset, `offset` fill sub-units lead, the middle loop breaks
  after index 5, and the last block renders `(3 - offset).max(0)` sub-units;
* without an offset every block renders in full.
The `[] => []` branches are unreachable for source-constructed renders
(`blocks` always has `STRIPE_LENGTH = 7` entries; the source `unwrap`s). -/
def StripeRender.render_base (s : StripeRender) : List ColoredChar :=
  match s.offset with
  | none => (s.blocks.map Block.color_coded).flatten
  | some o =>
    if o.left then
      match s.blocks with
      | [] => []
      | first :: rest =>
          first.render_len (TILE_WIDTH - o.offset)
            ++ (rest.map Block.color_coded).flatten
            ++ o.fill.render_len o.offset
    else
      o.fill.render_len o.offset
        ++ ((s.blocks.take 6).map Block.color_coded).flatten
        ++ (match s.blocks.drop 6 with
            | b :: _ => b.render_len (3 - o.offset)
            | [] => [])

/-- `StripeRender::render` (stripe.rs), up to the list of colored sub-units
(the terminal escape-code serialization of each `ColoredChar` is elided).
For each overlaid logical cell, the `TILE_WIDTH` sub-units at
`idx * TILE_WIDTH ..` are overwritten. -/
def StripeRender.render (s : StripeRender) : List ColoredChar :=
  (List.range s.overlay.length).foldl
    (fun acc idx =>
      match s.overlay.getD idx none with
      | none => acc
      | some b =>
          ((acc.set (idx * TILE_WIDTH) b.to_char).set
            (idx * TILE_WIDTH + 1) b.to_char).set
            (idx * TILE_WIDTH + 2) b.to_char)
    s.render_base

/-- `StripeRender::add_overlay` (stripe.rs). -/
def StripeRender.add_overlay (s : StripeRender) (idx : Nat) (b : Block) : StripeRender :=
  { s with overlay := s.overlay.set idx (some b) }

/-- `struct GreenStripe` (stripe.rs). -/
structure GreenStripe where
  trees : List Bool
deriving DecidableEq, Repr

/-- `GreenStripe::generate` (stripe.rs): random fill (the oracle `r`), then
the center cell `STRIPE_LENGTH / 2` is forced clear. -/
def GreenStripe.generate (r : Fin STRIPE_LENGTH → Bool) : GreenStripe :=
  ⟨(List.ofFn r).set (STRIPE_LENGTH / 2) false⟩

/-- `GreenStripe::update` (stripe.rs): no-op. -/
def GreenStripe.updateStripe (s : GreenStripe) : GreenStripe := s

/-- `GreenStripe::collides` (stripe.rs): `self.trees[x as usize]`.
The lookup is in range for every state the game reaches (`x ≤ 6`). -/
def GreenStripe.collides (s : GreenStripe) (x : Nat) : Bool :=
  s.trees.getD x false

/-- `GreenStripe::visualize` (stripe.rs). -/
def GreenStripe.visualize (s : GreenStripe) : StripeRender :=
  StripeRender.new
    (s.trees.map (fun t => if t then Block.Green else Block.BrightGreen)) none

/-- `struct Railroad` (stripe.rs). -/
structure Railroad where
  cycle_length : Nat
  cycle_pos : Nat
deriving DecidableEq, Repr

/-- `Railroad::generate` (stripe.rs): `cycle_length = random_range(20..50)`;
the oracle `n` selects the value, `20 + n % 30` has exactly that support. -/
def Railroad.generate (n : Nat) : Railroad :=
  let cycle_length := 20 + n % 30
  ⟨cycle_length, cycle_length⟩

/-- `Railroad::update` (stripe.rs). -/
def Railroad.updateStripe (r : Railroad) : Railroad :=
  if r.cycle_pos = 0 then ⟨r.cycle_length, r.cycle_length⟩
  else ⟨r.cycle_length, r.cycle_pos - 1⟩

/-- `Railroad::collides` (stripe.rs): deadly iff `cycle_pos < 3`, the column
argument is ignored. -/
def Railroad.collides (r : Railroad) (_x : Nat) : Bool :=
  r.cycle_pos < 3

/-- `Railroad::visualize` (stripe.rs). -/
def Railroad.visualize (r : Railroad) : StripeRender :=
  let blocks :=
    if r.cycle_pos < 3 then List.replicate STRIPE_LENGTH Block.Red
    else if r.cycle_pos < 12 then List.replicate STRIPE_LENGTH Block.DarkYellow
    else List.replicate STRIPE_LENGTH Block.Gray
  StripeRender.new blocks none

/-- `struct Road` (stripe.rs). -/
structure Road where
  cars : List Bool
  left : Bool
  current_car_len : Int
  offset : Nat
deriving DecidableEq, Repr

/-- The `new_tile` match inside `Road::advance_road` (stripe.rs):
`-1..=0 => false, ..-1 => rand, 1 => true, 2 => rand, 3.. => false`.
`coin` is the oracle for the two `rand::random()` arms. -/
def Road.advanceTile (n : Int) (coin : Bool) : Bool :=
  if -1 ≤ n ∧ n ≤ 0 then false
  else if n < -1 then coin
  else if n = 1 then true
  else if n = 2 then coin
  else false

/-- The `current_car_len` update inside `Road::advance_road` (stripe.rs):
on a car tile `len = max(len+1, 1)`, otherwise `if len > 1 { len = 1 };
len -= 1`. -/
def Road.advanceLen (n : Int) (tile : Bool) : Int :=
  if tile then max (n + 1) 1
  else (if 1 < n then 1 else n) - 1

/-- `Road::advance_road` (stripe.rs): computes the new tile, updates the
in-progress car length, rotates the cells one position in the configured
direction and writes the new tile at the trailing edge
(`rotate_left(1)` + `cars[6] = t` is `cars.tail ++ [t]`;
`rotate_right(1)` + `cars[0] = t` is `t :: cars.dropLast`). -/
def Road.advance_road (r : Road) (coin : Bool) : Road :=
  let t := Road.advanceTile r.current_car_len coin
  { cars := if r.left then r.cars.tail ++ [t] else t :: r.cars.dropLast,
    left := r.left,
    current_car_len := Road.advanceLen r.current_car_len t,
    offset := r.offset }

/-- The `Road` value `Road::generate` starts from (stripe.rs): all cells
empty, `current_car_len = 0`, `offset = 0`, random direction. -/
def Road.init (left : Bool) : Road :=
  { cars := List.replicate STRIPE_LENGTH false, left := left,
    current_car_len := 0, offset := 0 }

/-- A sequence of `advance_road` steps, one oracle coin per step. -/
def Road.advanceMany (r : Road) (coins : List Bool) : Road :=
  coins.foldl Road.advance_road r

/-- `Road::generate` (stripe.rs): the initial road advanced
`STRIPE_LENGTH` times. -/
def Road.generate (left : Bool) (coins : Fin STRIPE_LENGTH → Bool) : Road :=
  Road.advanceMany (Road.init left) (List.ofFn coins)

/-- `Road::update` (stripe.rs): `offset` cycles through 0..=2 and the road
advances exactly when it wraps to 0. -/
def Road.updateStripe (r : Road) (coin : Bool) : Road :=
  let r1 := { r with offset := (r.offset + 1) % TILE_WIDTH }
  if r1.offset = 0 then r1.advance_road coin else r1

/-- `Road::collides` (stripe.rs): `self.cars[x as usize]`. -/
def Road.collides (r : Road) (x : Nat) : Bool :=
  r.cars.getD x false

/-- `Road::visualize` (stripe.rs). -/
def Road.visualize (r : Road) : StripeRender :=
  StripeRender.new
    (r.cars.map (fun c => if c then Block.Red else Block.Gray))
    (some { offset := r.offset, fill := Block.Gray, left := r.left })

/-- `enum Stripe` (stripe.rs). -/
inductive Stripe where
  | empty
  | green (s : GreenStripe)
  | rail (r : Railroad)
  | road (r : Road)
deriving DecidableEq, Repr

/-- Oracle for `Stripe::generate` (stripe.rs): the weighted index chooses
which variant to build (all three have positive weight, so every variant is
in the support) together with that variant's own random inputs. -/
inductive StripeGen where
  | green (r : Fin STRIPE_LENGTH → Bool)
  | rail (n : Nat)
  | road (left : Bool) (coins : Fin STRIPE_LENGTH → Bool)

/-- `Stripe::generate` (stripe.rs). -/
def Stripe.generate (g : StripeGen) : Stripe :=
  match g with
  | .green r => .green (GreenStripe.generate r)
  | .rail n => .rail (Railroad.generate n)
  | .road left coins => .road (Road.generate left coins)

/-- `Stripe::update` (stripe.rs); `coin` is the oracle a `Road` variant may
consume this tick. -/
def Stripe.updateStripe (s : Stripe) (coin : Bool) : Stripe :=
  match s with
  | .empty => .empty
  | .green s => .green s.updateStripe
  | .rail r => .rail r.updateStripe
  | .road r => .road (r.updateStripe coin)

/-- `Stripe::collides` (stripe.rs). -/
def Stripe.collides (s : Stripe) (x : Nat) : Bool :=
  match s with
  | .empty => false
  | .green s => s.collides x
  | .rail r => r.collides x
  | .road r => r.collides x

/-- `Stripe::visualize` (stripe.rs). -/
def Stripe.visualize (s : Stripe) : StripeRender :=
  match s with
  | .empty => StripeRender.default
  | .green s => s.visualize
  | .rail r => r.visualize
  | .road r => r.visualize

/-- Modelled from the spec: `enum WallOfDeathPhase` is referenced by map.rs
but its declaration is not among the provided sources.  The spec (§3, §4.3)
and every `match` in map.rs fix the five phases
`Normal → Muddy → Shaky → Risky → Gone`. -/
inductive WallOfDeathPhase where
  | Normal | Muddy | Shaky | Risky | Gone
deriving DecidableEq, Repr

/-- `struct MapState` (map.rs).  `state` is the `VecDeque<Stripe>`: index 0
is the front (the row nearest the player / lowest `y`). -/
structure MapState where
  state : List Stripe
  player_x : Nat
  bottom_y : Nat
  player_down : Nat
  score : Nat
  wall_of_death : Nat
  wall_of_death_phase : WallOfDeathPhase
  tick : Nat
  game_started : Bool
  alive : Bool

/-- `map(i, f)` over a list, passing each element's position to `f`;
mirrors the `for stripe in &mut self.state` and render loops, with the
position used to address each row's oracle. -/
def mapWithIndex (f : Nat → α → β) : Nat → List α → List β
  | _, [] => []
  | i, a :: rest => f i a :: mapWithIndex f (i + 1) rest

/-- `MapState::y_pos` (map.rs): `self.bottom_y + idx as u64`. -/
def MapState.y_pos (m : MapState) (idx : Nat) : Nat :=
  m.bottom_y + idx

/-- The value of `(MAX_PLAYER_Y_INDEX as i32 - self.player_down as i32) as
usize` (map.rs, `detect_death`) read as a `u64`: for `player_down ≤ 3` it is
the window index `3 - player_down`; for larger `player_down` the negative
`i32` sign-extends to a huge 64-bit value `2^64 - (player_down - 3)`. -/
def MapState.idx_as_u64 (m : MapState) : Nat :=
  if m.player_down ≤ MAX_PLAYER_Y_INDEX then MAX_PLAYER_Y_INDEX - m.player_down
  else 2 ^ 64 - (m.player_down - MAX_PLAYER_Y_INDEX)

/-- `player_pos` in `detect_death` (map.rs):
`self.y_pos((MAX_PLAYER_Y_INDEX as i32 - self.player_down as i32) as usize)`
under wrapping (release-build) `u64` addition. -/
def MapState.player_pos (m : MapState) : Nat :=
  (m.bottom_y + m.idx_as_u64) % 2 ^ 64

/-- The `u64` addition inside `detect_death` stays in range (the debug build
panics, and the release build wraps, exactly when this is false). -/
def MapState.arith_ok (m : MapState) : Bool :=
  m.bottom_y + m.idx_as_u64 < 2 ^ 64

/-- The three-way death condition of `MapState::detect_death` (map.rs):
crossed the wall of death, retreated past the window (negative index), or
the lane at the window index collides at the player's column.  The lane
lookup uses `getD`; in the source it is evaluated only when the first two
disjuncts are false (so `3 - player_down` cannot underflow), and in that
case `getD` agrees with the source's `get(..).unwrap()`. -/
def MapState.death_cond (m : MapState) : Bool :=
  decide (m.player_pos < m.wall_of_death)
    || decide ((MAX_PLAYER_Y_INDEX : Int) - (m.player_down : Int) < 0)
    || (m.state.getD (MAX_PLAYER_Y_INDEX - m.player_down) Stripe.empty).collides
        m.player_x

/-- `MapState::detect_death` (map.rs): sets `alive = false` when the death
condition holds; it never resurrects. -/
def MapState.detect_death (m : MapState) : MapState :=
  if m.death_cond then { m with alive := false } else m

/-- `MapState::new` (map.rs): 20 freshly generated rows, rows 0..=3
overwritten with safe `GreenStripe`s, player at the center column. -/
def MapState.new (gens : Fin ROW_COUNT → StripeGen)
    (greens : Fin (MAX_PLAYER_Y_INDEX + 1) → Fin STRIPE_LENGTH → Bool) :
    MapState :=
  let st0 := List.ofFn (fun i : Fin ROW_COUNT => Stripe.generate (gens i))
  let st :=
    (((st0.set 0 (Stripe.green (GreenStripe.generate (greens 0)))).set 1
        (Stripe.green (GreenStripe.generate (greens 1)))).set 2
        (Stripe.green (GreenStripe.generate (greens 2)))).set 3
        (Stripe.green (GreenStripe.generate (greens 3)))
  { state := st,
    player_x := STRIPE_LENGTH / 2,
    bottom_y := 0,
    player_down := 0,
    score := 0,
    wall_of_death := 0,
    wall_of_death_phase := .Normal,
    tick := 0,
    game_started := false,
    alive := true }

/-- `MapState::up` (map.rs).  `g` is the oracle for the one stripe generated
when the window scrolls.  `push_back` then `pop_front` on the deque is
`(state ++ [new]).tail`.  The source's conditional
`if !game_started { game_started = true }` is written as the plain set. -/
def MapState.up (g : StripeGen) (m : MapState) : MapState :=
  let m1 := { m with game_started := true }
  let m2 :=
    if 0 < m1.player_down then
      { m1 with player_down := m1.player_down - 1 }
    else
      let st := (m1.state ++ [Stripe.generate g]).tail
      let newBottom := m1.bottom_y + 1
      if m1.wall_of_death < newBottom then
        { m1 with state := st, score := m1.score + 1, bottom_y := newBottom,
                  wall_of_death_phase := .Normal, wall_of_death := newBottom }
      else
        { m1 with state := st, score := m1.score + 1, bottom_y := newBottom }
  m2.detect_death

/-- `MapState::down` (map.rs): `player_down` is a `u8`, so the increment
wraps at 256. -/
def MapState.down (m : MapState) : MapState :=
  MapState.detect_death
    { m with game_started := true, player_down := (m.player_down + 1) % 256 }

/-- `MapState::left` (map.rs). -/
def MapState.left (m : MapState) : MapState :=
  MapState.detect_death
    { m with game_started := true,
             player_x := if 0 < m.player_x then m.player_x - 1 else m.player_x }

/-- `MapState::right` (map.rs). -/
def MapState.right (m : MapState) : MapState :=
  MapState.detect_death
    { m with game_started := true,
             player_x := if m.player_x < STRIPE_LENGTH - 1 then m.player_x + 1
                         else m.player_x }

/-- `MapState::update` (map.rs): advance the tick, update every stripe
(`coins i` is row `i`'s oracle), advance the wall-of-death phase machine
every 5th tick once the game has started, then check for death. -/
def MapState.update (coins : Nat → Bool) (m : MapState) : MapState :=
  let m1 := { m with tick := m.tick + 1 }
  let m2 := { m1 with
    state := mapWithIndex (fun i (s : Stripe) => s.updateStripe (coins i)) 0
      m1.state }
  let m3 :=
    if m2.game_started = true ∧ m2.tick % 5 = 0 then
      match m2.wall_of_death_phase with
      | .Normal => { m2 with wall_of_death_phase := .Muddy }
      | .Muddy => { m2 with wall_of_death_phase := .Shaky }
      | .Shaky => { m2 with wall_of_death_phase := .Risky }
      | .Risky => { m2 with wall_of_death_phase := .Gone }
      | .Gone => { m2 with wall_of_death_phase := .Normal,
                           wall_of_death := m2.wall_of_death + 1 }
    else m2
  m3.detect_death

/-- The result of `MapState::render` (map.rs): either the death text or the
grid of rendered rows (the final `join("\n\r")` and per-char ANSI colors are
presentation). -/
inductive Frame where
  | deathScreen (text : String)
  | grid (rows : List (List ColoredChar))
deriving DecidableEq, Repr

/-- One row of `MapState::render`'s live branch (map.rs): visualize the
stripe, overlay the player marker on the row at the player's window index.
(map.rs also passes a wall-phase value to a `StripeRender::render` overload
that is absent from the provided stripe.rs revision, whose `render` takes no
phase; the modelled row follows the provided stripe.rs.) -/
def MapState.renderRow (m : MapState) (idx : Nat) (s : Stripe) :
    List ColoredChar :=
  let sr := s.visualize
  let sr :=
    if idx = MAX_PLAYER_Y_INDEX - m.player_down then
      sr.add_overlay m.player_x Block.White
    else sr
  sr.render

/-- `MapState::render` (map.rs): the death screen short-circuits with the
frozen score; otherwise all rows render and are emitted far-to-near
(`.rev()`). -/
def MapState.render (m : MapState) : Frame :=
  if m.alive = false then
    .deathScreen ("You died! Score: " ++ toString m.score)
  else
    .grid (mapWithIndex m.renderRow 0 m.state).reverse

/-- One externally driven operation on the game state, with its random
oracle where the operation consumes randomness. -/
inductive Op where
  | up (g : StripeGen)
  | down
  | left
  | right
  | update (coins : Nat → Bool)

/-- Dispatch one operation. -/
def MapState.apply (m : MapState) (o : Op) : MapState :=
  match o with
  | .up g => m.up g
  | .down => m.down
  | .left => m.left
  | .right => m.right
  | .update coins => m.update coins

/-- A whole play sequence. -/
def MapState.applyAll (m : MapState) (ops : List Op) : MapState :=
  ops.foldl MapState.apply m

/-! ### Road invariant: vehicles are separated by gaps of at least two cells

`noTFT l` says no three consecutive cells of `l` read
occupied-empty-occupied; equivalently (proved below) no two maximal runs of
occupied cells are separated by exactly one empty cell, i.e. all gaps
between vehicles have length at least 2. -/

/-- No contiguous occupied-empty-occupied triple. -/
def noTFT : List Bool → Bool
  | a :: b :: c :: rest => (!(a && !b && c)) && noTFT (b :: c :: rest)
  | _ => true

/-- The inductive relation between a road's cells (oriented so that new
tiles enter at the end) and its `current_car_len` state-machine value:
positive lengths are the length of the car currently being emitted (which
ends the list, preceded by an empty cell), `-1` and below record at least
that many trailing empty cells (capped at the two the proof needs). -/
def tailOK (l : List Bool) (n : Int) : Prop :=
  if 4 ≤ n then False
  else if n = 3 then
    l.getD 3 true = false ∧ l.getD 4 false = true ∧ l.getD 5 false = true ∧
      l.getD 6 false = true
  else if n = 2 then
    l.getD 4 true = false ∧ l.getD 5 false = true ∧ l.getD 6 false = true
  else if n = 1 then l.getD 5 true = false ∧ l.getD 6 false = true
  else if n = 0 then True
  else if n = -1 then l.getD 6 true = false
  else l.getD 5 true = false ∧ l.getD 6 true = false

/-- Full lane invariant for the oriented cell list and car-length state. -/
def laneInv (l : List Bool) (n : Int) : Prop :=
  l.length = STRIPE_LENGTH ∧ noTFT l = true ∧ tailOK l n

instance (l : List Bool) (n : Int) : Decidable (tailOK l n) := by
  unfold tailOK; infer_instance

instance (l : List Bool) (n : Int) : Decidable (laneInv l n) := by
  unfold laneInv; infer_instance

/-- A road's cells oriented so that the newly generated tile is always the
last element: `rotate_left` lanes already have this orientation,
`rotate_right` lanes are reversed. -/
def Road.ordered (r : Road) : List Bool :=
  if r.left then r.cars else r.cars.reverse

/-- The road invariant: the oriented cells and the car-length state satisfy
the lane invariant. -/
def RoadInv (r : Road) : Prop :=
  laneInv r.ordered r.current_car_len

/-! ### Concrete fixtures used by counterexamples and witnesses -/

/-- An all-grass, all-clear generation oracle. -/
def gensG : Fin ROW_COUNT → StripeGen := fun _ => .green (fun _ => false)

/-- All-clear fills for the four forced grass rows. -/
def greensG : Fin (MAX_PLAYER_Y_INDEX + 1) → Fin STRIPE_LENGTH → Bool :=
  fun _ _ => false

/-- A single all-clear grass generation. -/
def gGreen : StripeGen := .green (fun _ => false)

/-- The dead state reached from a fresh game by four down-moves. -/
def deadState : MapState :=
  (MapState.new gensG greensG).applyAll [.down, .down, .down, .down]

/-- A live state whose player row holds a rail crossing with countdown 0. -/
def mC2 : MapState :=
  { state := (List.replicate ROW_COUNT Stripe.empty).set 3 (.rail ⟨20, 0⟩),
    player_x := 3, bottom_y := 0, player_down := 0, score := 0,
    wall_of_death := 0, wall_of_death_phase := .Normal, tick := 0,
    game_started := false, alive := true }

/-- A live state whose player row holds a rail crossing with countdown 2. -/
def mC2w : MapState :=
  { state := (List.replicate ROW_COUNT Stripe.empty).set 3 (.rail ⟨20, 2⟩),
    player_x := 0, bottom_y := 0, player_down := 0, score := 0,
    wall_of_death := 0, wall_of_death_phase := .Normal, tick := 0,
    game_started := false, alive := true }

/-- A live state holding a positive down-offset. -/
def mC9 : MapState :=
  { state := List.replicate ROW_COUNT Stripe.empty,
    player_x := 3, bottom_y := 5, player_down := 2, score := 9,
    wall_of_death := 4, wall_of_death_phase := .Muddy, tick := 7,
    game_started := true, alive := true }



lemma exists_len7 (l : List Bool) (h : l.length = 7) :
    ∃ a b c d e f g, l = [a, b, c, d, e, f, g] := by
  match l with
  | [a, b, c, d, e, f, g] => exact ⟨a, b, c, d, e, f, g, rfl⟩
  | [] | [_] | [_, _] | [_, _, _] | [_, _, _, _] | [_, _, _, _, _]
  | [_, _, _, _, _, _] => simp at h
  | _ :: _ :: _ :: _ :: _ :: _ :: _ :: _ :: _ => simp at h

/-- Shifting one cell out and appending `t` preserves `noTFT` as long as
the appended cell does not complete an occupied-empty-occupied triple. -/
lemma noTFT_shift : ∀ a b c d e f g t : Bool,
    noTFT [a, b, c, d, e, f, g] = true →
    ¬(f = true ∧ g = false ∧ t = true) →
    noTFT [b, c, d, e, f, g, t] = true := by decide

lemma advanceTile_neg1_0 {n : Int} (h1 : -1 ≤ n) (h2 : n ≤ 0) (c : Bool) :
    Road.advanceTile n c = false := by
  unfold Road.advanceTile
  rw [if_pos ⟨h1, h2⟩]

lemma advanceTile_lt_neg1 {n : Int} (h : n < -1) (c : Bool) :
    Road.advanceTile n c = c := by
  unfold Road.advanceTile
  rw [if_neg (by omega), if_pos h]

lemma advanceTile_one (c : Bool) : Road.advanceTile 1 c = true := by
  cases c <;> decide

lemma advanceTile_two (c : Bool) : Road.advanceTile 2 c = c := by
  cases c <;> decide

lemma advanceTile_ge3 {n : Int} (h : 3 ≤ n) (c : Bool) :
    Road.advanceTile n c = false := by
  unfold Road.advanceTile
  rw [if_neg (by omega), if_neg (by omega), if_neg (by omega),
    if_neg (by omega)]

lemma advanceLen_false {n : Int} :
    Road.advanceLen n false = (if 1 < n then 1 else n) - 1 := rfl

lemma advanceLen_true {n : Int} : Road.advanceLen n true = max (n + 1) 1 := rfl

lemma tailOK_le_neg2 {l : List Bool} {n : Int} (h : n ≤ -2) :
    tailOK l n ↔ (l.getD 5 true = false ∧ l.getD 6 true = false) := by
  unfold tailOK
  rw [if_neg (by omega), if_neg (by omega), if_neg (by omega),
    if_neg (by omega), if_neg (by omega), if_neg (by omega)]

lemma tailOK_neg1 {l : List Bool} :
    tailOK l (-1) ↔ l.getD 6 true = false := by
  unfold tailOK
  norm_num

/-- One advance step preserves the lane invariant. -/
lemma laneInv_step (l : List Bool) (n : Int) (coin : Bool) (h : laneInv l n) :
    laneInv (l.tail ++ [Road.advanceTile n coin])
      (Road.advanceLen n (Road.advanceTile n coin)) := by
  obtain ⟨hlen, hno, htail⟩ := h
  obtain ⟨a, b, c, d, e, f, g, rfl⟩ := exists_len7 l hlen
  have hcase : 4 ≤ n ∨ n = 3 ∨ n = 2 ∨ n = 1 ∨ n = 0 ∨ n = -1 ∨ n ≤ -2 := by
    omega
  rcases hcase with h4 | rfl | rfl | rfl | rfl | rfl | h2
  · exact absurd htail (by unfold tailOK; rw [if_pos h4]; exact not_false)
  · -- n = 3: forced empty tile, car just ended
    rw [advanceTile_ge3 (by norm_num) coin]
    refine ⟨rfl, noTFT_shift a b c d e f g false hno (by simp), ?_⟩
    norm_num [advanceLen_false, tailOK]
  · -- n = 2: coin decides whether the car grows to length 3 or ends
    rw [advanceTile_two]
    obtain ⟨he, hf, hg⟩ : e = false ∧ f = true ∧ g = true := by
      unfold tailOK at htail; norm_num at htail; simpa using htail
    subst he hf hg
    cases coin with
    | false =>
      refine ⟨rfl, noTFT_shift a b c d false true true false hno (by simp), ?_⟩
      norm_num [advanceLen_false, tailOK]
    | true =>
      refine ⟨rfl, noTFT_shift a b c d false true true true hno (by simp), ?_⟩
      norm_num [advanceLen_true, tailOK]
  · -- n = 1: the car must continue to length 2
    rw [advanceTile_one]
    obtain ⟨hf, hg⟩ : f = false ∧ g = true := by
      unfold tailOK at htail; norm_num at htail; simpa using htail
    subst hf hg
    refine ⟨rfl, noTFT_shift a b c d e false true true hno (by simp), ?_⟩
    norm_num [advanceLen_true, tailOK]
  · -- n = 0: forced empty tile
    rw [advanceTile_neg1_0 (by norm_num) (by norm_num)]
    refine ⟨rfl, noTFT_shift a b c d e f g false hno (by simp), ?_⟩
    norm_num [advanceLen_false]
    rw [tailOK_neg1]
    rfl
  · -- n = -1: forced empty tile, second trailing gap cell
    rw [advanceTile_neg1_0 (by norm_num) (by norm_num)]
    have hg : g = false := by rwa [tailOK_neg1] at htail
    subst hg
    refine ⟨rfl, noTFT_shift a b c d e f false false hno (by simp), ?_⟩
    norm_num [advanceLen_false]
    rw [tailOK_le_neg2 (by norm_num)]
    exact ⟨rfl, rfl⟩
  · -- n ≤ -2: the coin decides between extending the gap and a new car
    obtain ⟨hf, hg⟩ : f = false ∧ g = false := by
      rwa [tailOK_le_neg2 h2] at htail
    subst hf hg
    rw [advanceTile_lt_neg1 (by omega)]
    cases coin with
    | false =>
      refine ⟨rfl, noTFT_shift a b c d e false false false hno (by simp), ?_⟩
      rw [advanceLen_false, if_neg (by omega), tailOK_le_neg2 (by omega)]
      exact ⟨rfl, rfl⟩
    | true =>
      refine ⟨rfl, noTFT_shift a b c d e false false true hno (by simp), ?_⟩
      rw [advanceLen_true, max_eq_right (by omega)]
      unfold tailOK
      norm_num

lemma ordered_advance (r : Road) (c : Bool) :
    (r.advance_road c).ordered
      = r.ordered.tail ++ [Road.advanceTile r.current_car_len c] := by
  unfold Road.ordered Road.advance_road
  cases hl : r.left with
  | true => simp [hl]
  | false =>
    simp only [hl, if_false, Bool.false_eq_true]
    rw [List.reverse_cons, List.tail_reverse_eq_reverse_dropLast]

lemma RoadInv.advance (r : Road) (c : Bool) (h : RoadInv r) :
    RoadInv (r.advance_road c) := by
  unfold RoadInv
  rw [ordered_advance]
  exact laneInv_step r.ordered r.current_car_len c h

lemma RoadInv.advanceMany (r : Road) (coins : List Bool) (h : RoadInv r) :
    RoadInv (Road.advanceMany r coins) := by
  induction coins generalizing r with
  | nil => exact h
  | cons c rest ih => exact ih _ (h.advance r c)

lemma RoadInv.init (left : Bool) : RoadInv (Road.init left) := by
  unfold RoadInv
  cases left <;> decide

lemma RoadInv.generate (left : Bool) (coins : Fin STRIPE_LENGTH → Bool) :
    RoadInv (Road.generate left coins) :=
  RoadInv.advanceMany _ _ (RoadInv.init left)

lemma noTFT_tail (x : Bool) (l : List Bool) (h : noTFT (x :: l) = true) :
    noTFT l = true := by
  match l with
  | [] => rfl
  | [_] => rfl
  | b :: c :: rest =>
    rw [noTFT, Bool.and_eq_true] at h
    exact h.2

/-- `noTFT` captures exactly "no gap of a single empty cell": it holds iff
the cells are never of the form `… occupied, empty, occupied …`. -/
lemma noTFT_eq_true_iff (l : List Bool) :
    noTFT l = true ↔ ∀ l₁ l₂, l ≠ l₁ ++ true :: false :: true :: l₂ := by
  constructor
  · intro h l₁ l₂ heq
    induction l₁ generalizing l with
    | nil =>
      subst heq
      simp [noTFT] at h
    | cons x xs ih =>
      subst heq
      exact ih _ (noTFT_tail x _ h) rfl
  · intro h
    by_contra hfalse
    rw [Bool.not_eq_true] at hfalse
    obtain ⟨l₁, l₂, heq⟩ : ∃ l₁ l₂, l = l₁ ++ true :: false :: true :: l₂ := by
      clear h
      induction l with
      | nil => simp [noTFT] at hfalse
      | cons a tail ih =>
        rcases tail with _ | ⟨b, _ | ⟨c, rest⟩⟩
        · simp [noTFT] at hfalse
        · simp [noTFT] at hfalse
        · cases htl : noTFT (b :: c :: rest) with
          | false =>
            obtain ⟨l₁, l₂, heq⟩ := ih htl
            exact ⟨a :: l₁, l₂, by simp [heq]⟩
          | true =>
            simp only [noTFT, htl, Bool.and_true] at hfalse
            have ha : a = true ∧ b = false ∧ c = true := by
              revert hfalse; cases a <;> cases b <;> cases c <;> decide
            obtain ⟨rfl, rfl, rfl⟩ := ha
            exact ⟨[], rest, rfl⟩
    exact h l₁ l₂ heq

lemma RoadInv.cars_length (r : Road) (h : RoadInv r) :
    r.cars.length = STRIPE_LENGTH := by
  obtain ⟨hlen, -, -⟩ := h
  unfold Road.ordered at hlen
  rcases hr : r.left <;> simp [hr] at hlen <;> exact hlen

/-- `noTFT` is symmetric under reversal (the forbidden pattern is a
palindrome). -/
lemma noTFT_reverse (l : List Bool) :
    noTFT l.reverse = true ↔ noTFT l = true := by
  rw [noTFT_eq_true_iff, noTFT_eq_true_iff]
  constructor
  · intro h l₁ l₂ heq
    exact h l₂.reverse l₁.reverse (by
      rw [heq]
      simp [List.reverse_append])
  · intro h l₁ l₂ heq
    refine h l₂.reverse l₁.reverse ?_
    have := congrArg List.reverse heq
    rw [List.reverse_reverse] at this
    rw [this]
    simp [List.reverse_append]

lemma RoadInv.noTFT_cars (r : Road) (h : RoadInv r) : noTFT r.cars = true := by
  obtain ⟨-, hno, -⟩ := h
  unfold Road.ordered at hno
  rcases hr : r.left <;> rw [hr] at hno <;> simp at hno
  · exact (noTFT_reverse r.cars).mp hno
  · exact hno

/-- Everything claim C4 asserts about one road state satisfying the
invariant: no single-cell gap between vehicles, and every advance step
keeps the direction and shifts the cells one position along it. -/
lemma road_good (r : Road) (h : RoadInv r) :
    (∀ l₁ l₂, r.cars ≠ l₁ ++ true :: false :: true :: l₂) ∧
    (∀ k, (r.advance_road k).left = r.left) ∧
    (∀ k i, i < STRIPE_LENGTH - 1 →
      if r.left then (r.advance_road k).cars.get? i = r.cars.get? (i + 1)
      else (r.advance_road k).cars.get? (i + 1) = r.cars.get? i) := by
  have hlen := h.cars_length r
  have hno := h.noTFT_cars r
  refine ⟨(noTFT_eq_true_iff _).mp hno, fun k => rfl, ?_⟩
  intro k i hi
  have hi6 : i < 6 := hi
  obtain ⟨a, b, c, d, e, f, g, hcars⟩ := exists_len7 r.cars hlen
  rcases hl : r.left
  · simp only [hl, Road.advance_road, hcars, Bool.false_eq_true, if_false,
      List.dropLast, ite_false]
    interval_cases i <;> rfl
  · simp only [hl, Road.advance_road, hcars, if_true, List.tail_cons, ite_true]
    interval_cases i <;> rfl

/-! ### Generic facts about `detect_death` and the operations -/

@[simp] lemma detect_death_state (m : MapState) :
    m.detect_death.state = m.state := by
  unfold MapState.detect_death; split <;> rfl

@[simp] lemma detect_death_player_x (m : MapState) :
    m.detect_death.player_x = m.player_x := by
  unfold MapState.detect_death; split <;> rfl

@[simp] lemma detect_death_bottom_y (m : MapState) :
    m.detect_death.bottom_y = m.bottom_y := by
  unfold MapState.detect_death; split <;> rfl

@[simp] lemma detect_death_player_down (m : MapState) :
    m.detect_death.player_down = m.player_down := by
  unfold MapState.detect_death; split <;> rfl

@[simp] lemma detect_death_score (m : MapState) :
    m.detect_death.score = m.score := by
  unfold MapState.detect_death; split <;> rfl

@[simp] lemma detect_death_wall (m : MapState) :
    m.detect_death.wall_of_death = m.wall_of_death := by
  unfold MapState.detect_death; split <;> rfl

@[simp] lemma detect_death_phase (m : MapState) :
    m.detect_death.wall_of_death_phase = m.wall_of_death_phase := by
  unfold MapState.detect_death; split <;> rfl

@[simp] lemma detect_death_tick (m : MapState) :
    m.detect_death.tick = m.tick := by
  unfold MapState.detect_death; split <;> rfl

@[simp] lemma detect_death_game_started (m : MapState) :
    m.detect_death.game_started = m.game_started := by
  unfold MapState.detect_death; split <;> rfl

lemma detect_death_of_safe (m : MapState) (h : m.death_cond = false) :
    m.detect_death = m := by
  simp [MapState.detect_death, h]

lemma detect_death_of_dead (m : MapState) (h : m.death_cond = true) :
    m.detect_death = { m with alive := false } := by
  simp [MapState.detect_death, h]

lemma detect_death_alive_false (m : MapState) (h : m.alive = false) :
    m.detect_death.alive = false := by
  unfold MapState.detect_death
  split
  · rfl
  · exact h

lemma mapWithIndex_length (f : Nat → α → β) :
    ∀ (i : Nat) (l : List α), (mapWithIndex f i l).length = l.length
  | _, [] => rfl
  | i, a :: rest => by
      simp only [mapWithIndex, List.length_cons,
        mapWithIndex_length f (i + 1) rest]

lemma mapWithIndex_get? (f : Nat → α → β) :
    ∀ (i j : Nat) (l : List α),
      (mapWithIndex f i l).get? j = (l.get? j).map (f (i + j))
  | _, _, [] => by simp [mapWithIndex]
  | i, 0, a :: rest => by simp [mapWithIndex]
  | i, j + 1, a :: rest => by
      have harg : i + 1 + j = i + (j + 1) := by omega
      simp only [mapWithIndex, List.get?_cons_succ,
        mapWithIndex_get? f (i + 1) j rest, harg]

/-- No operation resurrects a dead player: every operation ends in
`detect_death`, which only ever clears `alive`. -/
lemma apply_alive_false (m : MapState) (o : Op) (h : m.alive = false) :
    (m.apply o).alive = false := by
  cases o with
  | up g =>
    unfold MapState.apply MapState.up
    apply detect_death_alive_false
    dsimp only
    split_ifs <;> simpa using h
  | down =>
    unfold MapState.apply MapState.down
    apply detect_death_alive_false
    simpa using h
  | left =>
    unfold MapState.apply MapState.left
    apply detect_death_alive_false
    simpa using h
  | right =>
    unfold MapState.apply MapState.right
    apply detect_death_alive_false
    simpa using h
  | update coins =>
    unfold MapState.apply MapState.update
    apply detect_death_alive_false
    split_ifs
    · split <;> simpa using h
    · simpa using h

/-- The score, window coordinate and wall coordinate never decrease under
any single operation. -/
lemma apply_mono (m : MapState) (o : Op) :
    m.score ≤ (m.apply o).score ∧ m.bottom_y ≤ (m.apply o).bottom_y ∧
      m.wall_of_death ≤ (m.apply o).wall_of_death := by
  cases o with
  | up g =>
    unfold MapState.apply MapState.up
    simp only [detect_death_score, detect_death_bottom_y, detect_death_wall]
    split_ifs <;> simp <;> omega
  | down =>
    unfold MapState.apply MapState.down
    simp only [detect_death_score, detect_death_bottom_y, detect_death_wall]
    simp
  | left =>
    unfold MapState.apply MapState.left
    simp only [detect_death_score, detect_death_bottom_y, detect_death_wall]
    simp
  | right =>
    unfold MapState.apply MapState.right
    simp only [detect_death_score, detect_death_bottom_y, detect_death_wall]
    simp
  | update coins =>
    unfold MapState.apply MapState.update
    simp only [detect_death_score, detect_death_bottom_y, detect_death_wall]
    split_ifs
    · split <;> simp
    · simp

/-- The window never changes size. -/
lemma apply_state_length (m : MapState) (o : Op) :
    (m.apply o).state.length = m.state.length := by
  cases o with
  | up g =>
    unfold MapState.apply MapState.up
    simp only [detect_death_state]
    split_ifs <;> simp [List.length_tail]
  | down =>
    unfold MapState.apply MapState.down
    simp only [detect_death_state]
  | left =>
    unfold MapState.apply MapState.left
    simp only [detect_death_state]
  | right =>
    unfold MapState.apply MapState.right
    simp only [detect_death_state]
  | update coins =>
    unfold MapState.apply MapState.update
    simp only [detect_death_state]
    split_ifs
    · split <;> simp [mapWithIndex_length]
    · simp [mapWithIndex_length]

lemma applyAll_state_length (m : MapState) (ops : List Op) :
    (m.applyAll ops).state.length = m.state.length := by
  induction ops generalizing m with
  | nil => rfl
  | cons o rest ih =>
    calc (m.applyAll (o :: rest)).state.length
        = ((m.apply o).applyAll rest).state.length := rfl
      _ = (m.apply o).state.length := ih _
      _ = m.state.length := apply_state_length m o

lemma new_state_length (gens : Fin ROW_COUNT → StripeGen)
    (greens : Fin (MAX_PLAYER_Y_INDEX + 1) → Fin STRIPE_LENGTH → Bool) :
    (MapState.new gens greens).state.length = ROW_COUNT := by
  simp [MapState.new, List.length_set, List.length_ofFn, ROW_COUNT]

/-- The generated grass lane always has its center column clear. -/
lemma greenStripe_center_clear (r : Fin STRIPE_LENGTH → Bool) :
    (GreenStripe.generate r).collides (STRIPE_LENGTH / 2) = false := by
  unfold GreenStripe.generate GreenStripe.collides
  rw [List.getD_eq_get?,
    List.get?_set_eq_of_lt false (by simp [List.length_ofFn]; decide)]
  rfl

/-- The four rows nearest the player in a fresh window are the forced-safe
grass rows. -/
lemma new_state_get?_small (gens : Fin ROW_COUNT → StripeGen)
    (greens : Fin (MAX_PLAYER_Y_INDEX + 1) → Fin STRIPE_LENGTH → Bool) :
    (MapState.new gens greens).state.get? 0
        = some (Stripe.green (GreenStripe.generate (greens 0))) ∧
      (MapState.new gens greens).state.get? 1
        = some (Stripe.green (GreenStripe.generate (greens 1))) ∧
      (MapState.new gens greens).state.get? 2
        = some (Stripe.green (GreenStripe.generate (greens 2))) := by
  unfold MapState.new
  dsimp only
  have hlen0 :
      (List.ofFn (fun i : Fin ROW_COUNT => Stripe.generate (gens i))).length
        = ROW_COUNT := by
    simp [List.length_ofFn, ROW_COUNT]
  refine ⟨?_, ?_, ?_⟩
  · rw [List.get?_set_ne _ _ (by decide), List.get?_set_ne _ _ (by decide),
      List.get?_set_ne _ _ (by decide),
      List.get?_set_eq_of_lt _ (by rw [hlen0]; decide)]
  · rw [List.get?_set_ne _ _ (by decide), List.get?_set_ne _ _ (by decide),
      List.get?_set_eq_of_lt _ (by rw [List.length_set, hlen0]; decide)]
  · rw [List.get?_set_ne _ _ (by decide),
      List.get?_set_eq_of_lt _
        (by rw [List.length_set, List.length_set, hlen0]; decide)]

/-- Moving down `k ≤ 3` times in a fresh window is safe: the window index
stays non-negative, the wall is at 0 and the row reached is a forced-safe
grass row at the center column. -/
lemma death_cond_down (gens : Fin ROW_COUNT → StripeGen)
    (greens : Fin (MAX_PLAYER_Y_INDEX + 1) → Fin STRIPE_LENGTH → Bool)
    (k : Nat) (h1 : 1 ≤ k) (h3 : k ≤ 3) :
    ({ MapState.new gens greens with game_started := true, player_down := k }
      : MapState).death_cond = false := by
  obtain ⟨hg0, hg1, hg2⟩ := new_state_get?_small gens greens
  unfold MapState.death_cond
  rw [Bool.or_eq_false_iff, Bool.or_eq_false_iff]
  refine ⟨⟨?_, ?_⟩, ?_⟩
  · -- nothing is below a wall at coordinate 0
    simp only [decide_eq_false_iff_not]
    exact Nat.not_lt_zero _
  · -- the window index 3 - k is non-negative
    simp only [decide_eq_false_iff_not]
    show ¬(MAX_PLAYER_Y_INDEX : Int) - (k : Int) < 0
    unfold MAX_PLAYER_Y_INDEX
    omega
  · -- the row reached is a center-clear grass row
    interval_cases k
    · show ((MapState.new gens greens).state.getD 2 Stripe.empty).collides
        (STRIPE_LENGTH / 2) = false
      rw [List.getD_eq_get?, hg2]
      exact greenStripe_center_clear (greens 2)
    · show ((MapState.new gens greens).state.getD 1 Stripe.empty).collides
        (STRIPE_LENGTH / 2) = false
      rw [List.getD_eq_get?, hg1]
      exact greenStripe_center_clear (greens 1)
    · show ((MapState.new gens greens).state.getD 0 Stripe.empty).collides
        (STRIPE_LENGTH / 2) = false
      rw [List.getD_eq_get?, hg0]
      exact greenStripe_center_clear (greens 0)


lemma applyAll_mono (m : MapState) (ops : List Op) :
    m.score ≤ (m.applyAll ops).score ∧ m.bottom_y ≤ (m.applyAll ops).bottom_y ∧
      m.wall_of_death ≤ (m.applyAll ops).wall_of_death := by
  induction ops generalizing m with
  | nil => exact ⟨le_refl _, le_refl _, le_refl _⟩
  | cons o rest ih =>
    have h1 := apply_mono m o
    have h2 := ih (m.apply o)
    exact ⟨h1.1.trans h2.1, h1.2.1.trans h2.2.1, h1.2.2.trans h2.2.2⟩

/-- A freshly constructed render never carries an overlay, so `render`
reduces to `render_base`. -/
lemma render_new_eq_render_base (blocks : List Block) (off : Option Offset) :
    (StripeRender.new blocks off).render
      = (StripeRender.new blocks off).render_base := rfl

/-! ### Claims -/

/-- C1 counterexample: `deadState` (reached from a fresh game by four
down-moves) has `alive = false`, yet a further `down()` call still mutates
the state — `player_down` grows from 4 to 5 — so post-death movement calls
are not no-ops.  (None of the movement/tick methods in map.rs guard on
`alive`; the surrounding main loop simply stops calling them.) -/
theorem C1_counterexample :
    deadState.alive = false ∧ deadState.player_down = 4 ∧
      (deadState.down).player_down = 5 := by decide

/-- C1 (amended): after death the liveness flag stays false under any
further operation (`detect_death` never resurrects, and no operation
touches `alive` otherwise), and `render()` returns the death text with the
current score; the operations themselves are not guarded on liveness and
may still mutate the rest of the state. -/
theorem C1_death_terminal_liveness_and_render (m : MapState) (o : Op)
    (h : m.alive = false) :
    (m.apply o).alive = false ∧
      m.render = Frame.deathScreen ("You died! Score: " ++ toString m.score) :=
  ⟨apply_alive_false m o h, by simp [MapState.render, h]⟩

/-- Witness for the amended C1 theorem at the concrete dead state. -/
theorem C1_witness :
    deadState.alive = false ∧
      ((deadState.apply .down).alive = false ∧
        deadState.render
          = Frame.deathScreen ("You died! Score: " ++ toString deadState.score)) :=
  ⟨by decide,
    C1_death_terminal_liveness_and_render deadState .down (by decide)⟩

/-- C2 counterexample: `mC2` has a rail crossing with countdown 0 at the
player's window index, yet a single `update()` leaves the player alive —
the tick first wraps the countdown back to the cycle length (20), and only
then runs the death check, which finds the lane safe. -/
theorem C2_counterexample :
    mC2.state.getD (MAX_PLAYER_Y_INDEX - mC2.player_down) Stripe.empty
        = Stripe.rail ⟨20, 0⟩ ∧
      mC2.alive = true ∧ (mC2.update (fun _ => false)).alive = true := by
  decide

/-- C2 (amended): if the lane at the player's window index is a rail
crossing whose countdown is in 1..=3 **before** the tick (so that it is
below the lethal threshold 3 after the tick decrements it), a single
`update()` sets the liveness flag to false, for every player column. -/
theorem C2_rail_tick_kills (m : MapState) (r : Railroad) (coins : Nat → Bool)
    (hpd : m.player_down ≤ MAX_PLAYER_Y_INDEX)
    (hlane : m.state.get? (MAX_PLAYER_Y_INDEX - m.player_down)
      = some (Stripe.rail r))
    (hpos1 : 1 ≤ r.cycle_pos) (hpos3 : r.cycle_pos ≤ 3) :
    (m.update coins).alive = false := by
  have key : ∀ mm : MapState,
      mm.state = mapWithIndex (fun i (s : Stripe) => s.updateStripe (coins i))
        0 m.state →
      mm.player_down = m.player_down →
      mm.player_x = m.player_x →
      mm.detect_death.alive = false := by
    intro mm hst hpdm hx
    have h3 : (mm.state.getD (MAX_PLAYER_Y_INDEX - mm.player_down)
        Stripe.empty).collides mm.player_x = true := by
      rw [hst, hpdm, hx, List.getD_eq_get?, mapWithIndex_get?, hlane]
      simp only [Option.map_some', Option.getD_some]
      simp only [Stripe.updateStripe, Railroad.updateStripe]
      rw [if_neg (show ¬r.cycle_pos = 0 by omega)]
      simp only [Stripe.collides, Railroad.collides]
      simp only [decide_eq_true_eq]
      omega
    have hcond : mm.death_cond = true := by
      unfold MapState.death_cond
      rw [h3, Bool.or_true]
    rw [detect_death_of_dead mm hcond]
  unfold MapState.update
  dsimp only
  apply key
  · split_ifs
    · split <;> rfl
    · rfl
  · split_ifs
    · split <;> rfl
    · rfl
  · split_ifs
    · split <;> rfl
    · rfl

/-- Witness for the amended C2 theorem: countdown 2 before the tick. -/
theorem C2_witness :
    mC2w.player_down ≤ MAX_PLAYER_Y_INDEX ∧
      mC2w.state.get? (MAX_PLAYER_Y_INDEX - mC2w.player_down)
        = some (Stripe.rail ⟨20, 2⟩) ∧
      1 ≤ (Railroad.mk 20 2).cycle_pos ∧ (Railroad.mk 20 2).cycle_pos ≤ 3 ∧
      (mC2w.update (fun _ => false)).alive = false :=
  ⟨by decide, by decide, by decide, by decide,
    C2_rail_tick_kills mC2w ⟨20, 2⟩ (fun _ => false) (by decide) (by decide)
      (by decide) (by decide)⟩

/-- C3: for every Traffic lane state, every sub-cell offset in 0..=2 and
either direction, the row produced by `visualize()` followed by `render()`
has exactly `STRIPE_LENGTH * TILE_WIDTH = 21` colored sub-units. -/
theorem C3_traffic_row_width (cars : List Bool) (left : Bool)
    (len : Int) (off : Nat) (hcars : cars.length = STRIPE_LENGTH)
    (hoff : off < TILE_WIDTH) :
    ((Road.mk cars left len off).visualize).render.length
      = STRIPE_LENGTH * TILE_WIDTH := by
  obtain ⟨a, b, c, d, e, f, g, rfl⟩ := exists_len7 cars hcars
  have hb : off < 3 := hoff
  rw [Road.visualize, render_new_eq_render_base]
  rcases left <;> interval_cases off <;>
    simp [StripeRender.new, StripeRender.render_base, Block.color_coded,
      Block.render_len, STRIPE_LENGTH, TILE_WIDTH]

/-- Witness for C3 at a concrete lane, right direction, offset 2. -/
theorem C3_witness :
    ([true, true, false, false, true, false, true] : List Bool).length
        = STRIPE_LENGTH ∧
      2 < TILE_WIDTH ∧
      ((Road.mk [true, true, false, false, true, false, true] false 0 2)
          |>.visualize).render.length = STRIPE_LENGTH * TILE_WIDTH :=
  ⟨rfl, by decide, C3_traffic_row_width _ false 0 2 rfl (by decide)⟩

/-- C4: every Traffic lane reachable by generation followed by any number
of advance steps has its vehicles separated by gaps of at least 2 empty
cells (the cells never contain occupied-empty-occupied, i.e. no gap of
exactly one cell; gaps of zero cells are impossible since the runs are
maximal), and each advance step keeps the lane's single configured
direction and shifts every cell one position along it. -/
theorem C4_traffic_vehicle_gaps_and_shift (left : Bool)
    (coins : Fin STRIPE_LENGTH → Bool) (more : List Bool) :
    (∀ l₁ l₂, (Road.advanceMany (Road.generate left coins) more).cars
        ≠ l₁ ++ true :: false :: true :: l₂) ∧
      (∀ k, ((Road.advanceMany (Road.generate left coins) more).advance_road
          k).left = (Road.advanceMany (Road.generate left coins) more).left) ∧
      (∀ k i, i < STRIPE_LENGTH - 1 →
        if (Road.advanceMany (Road.generate left coins) more).left then
          ((Road.advanceMany (Road.generate left coins)
              more).advance_road k).cars.get? i
            = (Road.advanceMany (Road.generate left coins) more).cars.get?
                (i + 1)
        else
          ((Road.advanceMany (Road.generate left coins)
              more).advance_road k).cars.get? (i + 1)
            = (Road.advanceMany (Road.generate left coins) more).cars.get? i) :=
  road_good _ (RoadInv.advanceMany _ more (RoadInv.generate left coins))

/-- Witness for C4 at a concrete generation and one advance step. -/
theorem C4_witness :
    (0 : Nat) < STRIPE_LENGTH - 1 ∧
      (∀ l₁ l₂, (Road.advanceMany (Road.generate true (fun _ => true)) []).cars
          ≠ l₁ ++ true :: false :: true :: l₂) ∧
      (if (Road.advanceMany (Road.generate true (fun _ => true)) []).left then
          ((Road.advanceMany (Road.generate true (fun _ => true))
              []).advance_road false).cars.get? 0
            = (Road.advanceMany (Road.generate true (fun _ => true))
                []).cars.get? 1
        else
          ((Road.advanceMany (Road.generate true (fun _ => true))
              []).advance_road false).cars.get? 1
            = (Road.advanceMany (Road.generate true (fun _ => true))
                []).cars.get? 0) := by
  have h := C4_traffic_vehicle_gaps_and_shift true (fun _ => true) []
  exact ⟨by decide, h.1, h.2.2 false 0 (by decide)⟩

/-- C5: along any play from a fresh game state, `wall_of_death`,
`bottom_y` and `score` never decrease: the values at any earlier point of
the sequence are dominated by the values at any later point. -/
theorem C5_monotone_counters (gens : Fin ROW_COUNT → StripeGen)
    (greens : Fin (MAX_PLAYER_Y_INDEX + 1) → Fin STRIPE_LENGTH → Bool)
    (ops extra : List Op) :
    ((MapState.new gens greens).applyAll ops).wall_of_death
        ≤ ((MapState.new gens greens).applyAll (ops ++ extra)).wall_of_death ∧
      ((MapState.new gens greens).applyAll ops).bottom_y
        ≤ ((MapState.new gens greens).applyAll (ops ++ extra)).bottom_y ∧
      ((MapState.new gens greens).applyAll ops).score
        ≤ ((MapState.new gens greens).applyAll (ops ++ extra)).score := by
  have happ : (MapState.new gens greens).applyAll (ops ++ extra)
      = ((MapState.new gens greens).applyAll ops).applyAll extra := by
    unfold MapState.applyAll
    exact List.foldl_append MapState.apply _ ops extra
  rw [happ]
  have h := applyAll_mono ((MapState.new gens greens).applyAll ops) extra
  exact ⟨h.2.2, h.2.1, h.1⟩

/-- C6: from a fresh game state (`wall_of_death = bottom_y = 0`, player row
index 3), three down-moves leave the player alive, and the fourth drives
the window index `3 - player_down` negative, so the player is dead
immediately after that call — for every generation oracle. -/
theorem C6_fourth_down_kills (gens : Fin ROW_COUNT → StripeGen)
    (greens : Fin (MAX_PLAYER_Y_INDEX + 1) → Fin STRIPE_LENGTH → Bool) :
    ((((MapState.new gens greens).down).down).down).alive = true ∧
      (((((MapState.new gens greens).down).down).down).down).alive = false := by
  have h1 : (MapState.new gens greens).down
      = { MapState.new gens greens with
            game_started := true, player_down := 1 } :=
    detect_death_of_safe _ (death_cond_down gens greens 1 (by decide)
      (by decide))
  have h2 : ({ MapState.new gens greens with
        game_started := true, player_down := 1 } : MapState).down
      = { MapState.new gens greens with
            game_started := true, player_down := 2 } :=
    detect_death_of_safe _ (death_cond_down gens greens 2 (by decide)
      (by decide))
  have h3 : ({ MapState.new gens greens with
        game_started := true, player_down := 2 } : MapState).down
      = { MapState.new gens greens with
            game_started := true, player_down := 3 } :=
    detect_death_of_safe _ (death_cond_down gens greens 3 (by decide)
      (by decide))
  have hc : ({ MapState.new gens greens with
      game_started := true, player_down := 4 } : MapState).death_cond
      = true := by
    have hd2 : (MAX_PLAYER_Y_INDEX : Int)
        - (({ MapState.new gens greens with
            game_started := true, player_down := 4 }
              : MapState).player_down : Int) < 0 := by
      show (MAX_PLAYER_Y_INDEX : Int) - ((4 : Nat) : Int) < 0
      decide
    unfold MapState.death_cond
    rw [decide_eq_true hd2, Bool.or_true, Bool.true_or]
  refine ⟨?_, ?_⟩
  · rw [h1, h2, h3]
    rfl
  · rw [h1, h2, h3]
    show (MapState.detect_death { MapState.new gens greens with
      game_started := true, player_down := 4 }).alive = false
    rw [detect_death_of_dead _ hc]

/-- C7: for every random fill, a generated Grass lane never reports a
collision at the center column `STRIPE_LENGTH / 2 = 3` (it is forced clear
at generation). -/
theorem C7_grass_center_never_collides (r : Fin STRIPE_LENGTH → Bool) :
    (GreenStripe.generate r).collides (STRIPE_LENGTH / 2) = false :=
  greenStripe_center_clear r

/-- C8: a rail crossing collides exactly when its countdown is strictly
below 3, and the answer does not depend on the queried column. -/
theorem C8_rail_uniform_lethality (r : Railroad) (x y : Nat) :
    (r.collides x = true ↔ r.cycle_pos < 3) ∧ r.collides x = r.collides y :=
  ⟨by simp [Railroad.collides], rfl⟩

/-- C9: on a live state with a positive down-offset, `up()` consumes
exactly one unit of the offset and leaves the score, `bottom_y`,
`wall_of_death`, the wall phase and the whole lane window untouched (no
scrolling, no generation), and the result is exactly the death check
applied to that offset-decremented state. -/
theorem C9_up_consumes_down_offset (m : MapState) (g : StripeGen)
    (halive : m.alive = true) (hdown : 0 < m.player_down) :
    (m.up g).player_down = m.player_down - 1 ∧
      (m.up g).score = m.score ∧
      (m.up g).bottom_y = m.bottom_y ∧
      (m.up g).wall_of_death = m.wall_of_death ∧
      (m.up g).wall_of_death_phase = m.wall_of_death_phase ∧
      (m.up g).state = m.state ∧
      m.up g = MapState.detect_death
        { m with game_started := true, player_down := m.player_down - 1 } := by
  have hrw : m.up g = MapState.detect_death
      { m with game_started := true, player_down := m.player_down - 1 } := by
    unfold MapState.up
    dsimp only
    rw [if_pos hdown]
  rw [hrw]
  refine ⟨?_, ?_, ?_, ?_, ?_, ?_, rfl⟩ <;> simp

/-- Witness for C9 at a concrete live state with down-offset 2. -/
theorem C9_witness :
    mC9.alive = true ∧ 0 < mC9.player_down ∧
      ((mC9.up gGreen).player_down = mC9.player_down - 1 ∧
        (mC9.up gGreen).score = mC9.score ∧
        (mC9.up gGreen).bottom_y = mC9.bottom_y ∧
        (mC9.up gGreen).wall_of_death = mC9.wall_of_death ∧
        (mC9.up gGreen).wall_of_death_phase = mC9.wall_of_death_phase ∧
        (mC9.up gGreen).state = mC9.state ∧
        mC9.up gGreen = MapState.detect_death
          { mC9 with
              game_started := true, player_down := mC9.player_down - 1 }) :=
  ⟨rfl, by decide, C9_up_consumes_down_offset mC9 gGreen rfl (by decide)⟩

/-- C10 counterexample: after one up-move the window has scrolled once
(`bottom_y = 1`); three further down-moves keep the player alive, and the
fourth down-move makes `detect_death` evaluate
`bottom_y + ((3 - player_down) as i32 as usize as u64)` with
`player_down = 4`, i.e. `1 + (2^64 - 1)`, which exceeds the `u64` range —
the claim that the absolute-row arithmetic always stays within integer
range is false (a debug build panics here; a release build wraps). -/
theorem C10_counterexample :
    ((MapState.new gensG greensG).applyAll
        [.up gGreen, .down, .down, .down]).alive = true ∧
      ((MapState.new gensG greensG).applyAll
          [.up gGreen, .down, .down, .down, .down]).player_down = 4 ∧
      ((MapState.new gensG greensG).applyAll
          [.up gGreen, .down, .down, .down, .down]).bottom_y = 1 ∧
      ((MapState.new gensG greensG).applyAll
          [.up gGreen, .down, .down, .down, .down]).arith_ok = false := by
  decide

/-- C10 (amended): on every reachable state the death check's lane lookup
is safe — the window always has its 20 rows and the lookup index always
addresses one of them (the negative-index disjunct short-circuits the
lookup in the source whenever `player_down > 3`, and the modelled
truncated index is always in range) — but the absolute-row `u64` addition
stays within integer range only when the window index is non-negative
(`player_down ≤ 3`; the counterexample shows it overflows otherwise). -/
theorem C10_death_check_lookup_safe (gens : Fin ROW_COUNT → StripeGen)
    (greens : Fin (MAX_PLAYER_Y_INDEX + 1) → Fin STRIPE_LENGTH → Bool)
    (ops : List Op) :
    ((MapState.new gens greens).applyAll ops).state.length = ROW_COUNT ∧
      (((MapState.new gens greens).applyAll ops).state.get?
          (MAX_PLAYER_Y_INDEX
            - ((MapState.new gens greens).applyAll ops).player_down)).isSome
        = true ∧
      (((MapState.new gens greens).applyAll ops).player_down
          ≤ MAX_PLAYER_Y_INDEX →
        ((MapState.new gens greens).applyAll ops).bottom_y
            + MAX_PLAYER_Y_INDEX < 2 ^ 64 →
        ((MapState.new gens greens).applyAll ops).arith_ok = true) := by
  have hM : MAX_PLAYER_Y_INDEX = 3 := rfl
  have hR : ROW_COUNT = 20 := rfl
  have hlen : ((MapState.new gens greens).applyAll ops).state.length
      = ROW_COUNT :=
    (applyAll_state_length _ _).trans (new_state_length gens greens)
  refine ⟨hlen, ?_, ?_⟩
  · have hidx : MAX_PLAYER_Y_INDEX
        - ((MapState.new gens greens).applyAll ops).player_down
        < ((MapState.new gens greens).applyAll ops).state.length := by
      rw [hlen]
      omega
    rw [List.get?_eq_get hidx]
    rfl
  · intro hpd hbound
    unfold MapState.arith_ok MapState.idx_as_u64
    rw [if_pos hpd]
    simp only [decide_eq_true_eq]
    omega

/-- Witness for the amended C10 theorem at the fresh state. -/
theorem C10_witness :
    ((MapState.new gensG greensG).applyAll []).state.length = ROW_COUNT ∧
      (((MapState.new gensG greensG).applyAll []).state.get?
          (MAX_PLAYER_Y_INDEX
            - ((MapState.new gensG greensG).applyAll []).player_down)).isSome
        = true ∧
      ((MapState.new gensG greensG).applyAll []).arith_ok = true := by
  have h := C10_death_check_lookup_safe gensG greensG []
  exact ⟨h.1, h.2.1, h.2.2 (by decide) (by decide)⟩
